import Mathlib

/-!
Verification of the demo-platform deprovisioning and provisioning orchestrator
(`server/src/index.ts` and `server/src/services/demoGenerator.ts`).

Strings from the source are embedded as `List Char`.  External collaborators
(the deploy-host REST API, the code-host API, the record store) are embedded
as oracles recording the outcome of each call; every endpoint additionally
returns the list of external calls it performed, in order, so that ordering
and attempted-ness properties can be stated.
-/

namespace DemoPlatform

/-- Which deploy-host API scope a call was issued against
(`endpointType` in `deleteVercelProject`). -/
inductive Scope
  | team
  | personal
deriving DecidableEq, Repr

/-- One external call performed by the server, in the order issued. -/
inductive Event
  | fetchTeamListing
  | fetchPersonalListing
  | vercelDelete (scope : Scope) (key : List Char)
  | githubDelete (owner repo : List Char)
  | dbDelete (id : List Char)
deriving DecidableEq, Repr

/-- True for deploy-host API calls (listing fetches and project deletions). -/
def Event.isVercel : Event → Bool
  | .fetchTeamListing => true
  | .fetchPersonalListing => true
  | .vercelDelete _ _ => true
  | _ => false

/-- True for code-host API calls. -/
def Event.isGithub : Event → Bool
  | .githubDelete _ _ => true
  | _ => false

/-- True for calls that can mutate external state (deletions). -/
def Event.isMutating : Event → Bool
  | .fetchTeamListing => false
  | .fetchPersonalListing => false
  | _ => true

/-- A project as returned by the deploy-host listing API. -/
structure Project where
  name : List Char
  id : List Char
deriving DecidableEq, Repr

/-- A Demo Record row of the `demos` table, restricted to the fields the
deletion endpoints read. -/
structure Demo where
  id : List Char
  frontend_url : Option (List Char)
  backend_url : Option (List Char)
  github_repo_url : Option (List Char)
deriving DecidableEq, Repr

/-- Process-wide configuration (`process.env.VERCEL_TOKEN`,
`process.env.VERCEL_TEAM_ID`). -/
structure Config where
  vercelToken : Option (List Char)
  teamId : Option (List Char)
deriving DecidableEq, Repr

/-- Oracle for the deploy-host REST API: outcome of the team and personal
listing fetches (`none` models a non-2xx response or network error), and
the outcome of a DELETE on `/projects/{key}` in a given scope. -/
structure VercelAPI where
  teamListing : Option (List Project)
  personalListing : Option (List Project)
  deleteOk : Scope → List Char → Bool

/-- The whole external world an endpoint call runs in. -/
structure World where
  cfg : Config
  api : VercelAPI
  githubOk : Bool
  dbDeleteOk : Bool
  db : List Demo

/-- HTTP-level outcome of an endpoint (`res.json` / `res.status(...)`). -/
inductive HttpResult
  | ok (message : String)
  | badRequest
  | notFound
  | serverError
deriving DecidableEq, Repr

/-- True exactly on the `res.json({success: true, ...})` outcome. -/
def HttpResult.isOk : HttpResult → Bool
  | .ok _ => true
  | _ => false

/-- Result of one endpoint call: HTTP outcome, external calls made (in
order), and the record-store contents afterwards. -/
structure Response where
  http : HttpResult
  trace : List Event
  db : List Demo
deriving DecidableEq, Repr

/-- JavaScript truthiness of an optional query/record string: `undefined`,
`null` and the empty string are falsy. -/
def isTruthy : Option (List Char) → Bool
  | none => false
  | some s => !s.isEmpty

/-- The `demos` row with the given id (`.select().eq('id', demoId).single()`). -/
def findDemo (db : List Demo) (did : List Char) : Option Demo :=
  db.find? (fun d => decide (d.id = did))

/-! ### String machinery: JavaScript `split`, `join`, `slice`, and the two
URL-shape regexes of `index.ts`. -/

/-- Prepend a character onto the first piece of a split (helper for
`splitHyphen`). -/
def consHead (c : Char) : List (List Char) → List (List Char)
  | [] => [[c]]
  | s :: ss => (c :: s) :: ss

/-- JavaScript `s.split('-')`: pieces between hyphens, empty pieces kept,
`""` splitting to `[""]`. -/
def splitHyphen : List Char → List (List Char)
  | [] => [[]]
  | c :: rest =>
    if c = '-' then [] :: splitHyphen rest
    else consHead c (splitHyphen rest)

/-- JavaScript `a.join('-')`. -/
def joinHyphen : List (List Char) → List Char
  | [] => []
  | [s] => s
  | s :: ss => s ++ '-' :: joinHyphen ss

/-- JavaScript `a.slice(2, -2)`: drop the first two and the last two
elements (empty when fewer than five elements). -/
def sliceTwoNegTwo (l : List α) : List α :=
  ((l.drop 2).dropLast).dropLast

/-- Leftover of `s` after a literal pattern, when the pattern starts `s`
(helper for the regex matchers). -/
def afterLit (pat s : List Char) : Option (List Char) :=
  if pat.isPrefixOf s then some (s.drop pat.length) else none

/-- The character class `[^.]` of the deploy-host URL regex. -/
def notDot (c : Char) : Bool :=
  decide (c ≠ '.')

/-- The character class `[^\/]` of the code-host URL regex. -/
def notSlash (c : Char) : Bool :=
  decide (c ≠ '/')

/-- One attempt of the regex `https:\/\/([^.]+)\.vercel\.app` at a fixed
position: the literal scheme, then a maximal nonempty run of non-dot
characters, then the literal `.vercel.app`. -/
def vercelMatchAt (s : List Char) : Option (List Char) :=
  match afterLit "https://".data s with
  | none => none
  | some rest =>
    let run := rest.takeWhile notDot
    if run.isEmpty then none
    else if (".vercel.app".data).isPrefixOf (rest.drop run.length) then some run
    else none

/-- `extractProjectNameFromUrl` of `index.ts`: first (leftmost) match of
`https:\/\/([^.]+)\.vercel\.app`, returning the captured project name. -/
def extractProjectNameFromUrl : List Char → Option (List Char)
  | [] => none
  | c :: t =>
    match vercelMatchAt (c :: t) with
    | some r => some r
    | none => extractProjectNameFromUrl t

/-- One attempt of the regex `https:\/\/github\.com\/([^\/]+)\/([^\/]+)`
at a fixed position: owner and repo segments, both maximal nonempty runs
of non-slash characters. -/
def githubMatchAt (s : List Char) : Option (List Char × List Char) :=
  match afterLit "https://github.com/".data s with
  | none => none
  | some rest =>
    let owner := rest.takeWhile notSlash
    if owner.isEmpty then none
    else
      match rest.drop owner.length with
      | [] => none
      | c :: rest2 =>
        if c = '/' then
          let repo := rest2.takeWhile notSlash
          if repo.isEmpty then none else some (owner, repo)
        else none

/-- URL parsing inside `deleteGitHubRepo`: first match of
`https:\/\/github\.com\/([^\/]+)\/([^\/]+)`, giving owner and repo. -/
def resolveRepoCoordinates : List Char → Option (List Char × List Char)
  | [] => none
  | c :: t =>
    match githubMatchAt (c :: t) with
    | some r => some r
    | none => resolveRepoCoordinates t

/-! ### The fuzzy project matcher of `deleteVercelProject`. -/

/-- JavaScript `hay.includes(needle)`: contiguous-substring containment. -/
def strIncludes (hay needle : List Char) : Bool :=
  decide (needle <:+: hay)

/-- Pass 2 of the matcher: `p.name.includes(projectName) ||
projectName.includes(p.name)`. -/
def substrMatch (target : List Char) (p : Project) : Bool :=
  strIncludes p.name target || strIncludes target p.name

/-- Pass 3 slug recovery: `projectName.split('-').slice(2, -2).join('-')` —
drop the two fixed leading tokens and the role and uniqueness-suffix
tokens, keeping the display-name slug in the middle. -/
def heuristicSlug (target : List Char) : List Char :=
  joinHyphen (sliceTwoNegTwo (splitHyphen target))

/-- The three-pass project search of `deleteVercelProject`: exact name
equality, then substring containment either way, then the recovered
display-name slug as a substring; each pass takes the first listing entry
that matches, and a later pass runs only when every earlier pass found
nothing. -/
def findProjectFuzzy (target : List Char) (projects : List Project) : Option Project :=
  match projects.find? (fun p => decide (p.name = target)) with
  | some p => some p
  | none =>
    match projects.find? (substrMatch target) with
    | some p => some p
    | none =>
      let customerName := heuristicSlug target
      if customerName.isEmpty then none
      else projects.find? (fun p => strIncludes p.name customerName)

/-! ### Deploy-host deletion helpers (`deleteVercelProject`,
`deleteVercelDeployments`, `deleteGitHubRepo`). -/

/-- The listing-fetch stage of `deleteVercelProject`: try the team
endpoint when a team id is configured (its failure is swallowed), fall
through to the personal endpoint when the team fetch failed or returned
an empty project list; a failing personal fetch is thrown. Returns the
listing and which scope produced it. -/
def fetchProjects (cfg : Config) (api : VercelAPI) :
    Except String (List Project × Scope) × List Event :=
  match cfg.teamId with
  | some _ =>
    match api.teamListing with
    | some ps =>
      if ps.isEmpty then
        match api.personalListing with
        | some qs => (.ok (qs, .personal), [.fetchTeamListing, .fetchPersonalListing])
        | none => (.error "Failed to fetch Vercel projects",
            [.fetchTeamListing, .fetchPersonalListing])
      else (.ok (ps, .team), [.fetchTeamListing])
    | none =>
      match api.personalListing with
      | some qs => (.ok (qs, .personal), [.fetchTeamListing, .fetchPersonalListing])
      | none => (.error "Failed to fetch Vercel projects",
          [.fetchTeamListing, .fetchPersonalListing])
  | none =>
    match api.personalListing with
    | some qs => (.ok (qs, .personal), [.fetchPersonalListing])
    | none => (.error "Failed to fetch Vercel projects", [.fetchPersonalListing])

/-- `deleteVercelProject` of `index.ts`: fetch the listing, run the
three-pass fuzzy search; when a project is found, DELETE it by id (a
non-2xx response is thrown); when none is found, fall back to a DELETE
addressed by the literal name, whose failure is swallowed. -/
def deleteVercelProject (projectName : List Char) (cfg : Config) (api : VercelAPI) :
    Except String Unit × List Event :=
  match fetchProjects cfg api with
  | (.error e, tr) => (.error e, tr)
  | (.ok (projects, scope), tr) =>
    match findProjectFuzzy projectName projects with
    | some project =>
      if api.deleteOk scope project.id then
        (.ok (), tr ++ [.vercelDelete scope project.id])
      else
        (.error "Failed to delete Vercel project", tr ++ [.vercelDelete scope project.id])
    | none =>
      (.ok (), tr ++ [.vercelDelete scope projectName])

/-- `demo.frontend_url ? extractProjectNameFromUrl(demo.frontend_url) : null`. -/
def frontendProjectName (demo : Demo) : Option (List Char) :=
  match demo.frontend_url with
  | some u => if u.isEmpty then none else extractProjectNameFromUrl u
  | none => none

/-- `demo.backend_url ? extractProjectNameFromUrl(demo.backend_url) : null`. -/
def backendProjectName (demo : Demo) : Option (List Char) :=
  match demo.backend_url with
  | some u => if u.isEmpty then none else extractProjectNameFromUrl u
  | none => none

/-- `deleteVercelDeployments` of `index.ts`: no-op when `VERCEL_TOKEN` is
unset; otherwise resolve each URL to a project name and delete the
frontend project then the backend project, rethrowing the first error
(so a frontend failure ends the pass before the backend attempt). -/
def deleteVercelDeployments (demo : Demo) (cfg : Config) (api : VercelAPI) :
    Except String Unit × List Event :=
  if !(isTruthy cfg.vercelToken) then (.ok (), [])
  else
    match frontendProjectName demo with
    | some f =>
      match deleteVercelProject f cfg api with
      | (.ok _, tr1) =>
        match backendProjectName demo with
        | some b =>
          match deleteVercelProject b cfg api with
          | (.ok _, tr2) => (.ok (), tr1 ++ tr2)
          | (.error e, tr2) => (.error e, tr1 ++ tr2)
        | none => (.ok (), tr1)
      | (.error e, tr1) => (.error e, tr1)
    | none =>
      match backendProjectName demo with
      | some b => deleteVercelProject b cfg api
      | none => (.ok (), [])

/-- `deleteGitHubRepo` of `index.ts`: parse owner and repo out of the URL
(an unparsable URL is thrown before any call), then issue the code-host
delete, whose outcome is the `githubOk` oracle. -/
def deleteGitHubRepo (repoUrl : List Char) (githubOk : Bool) :
    Except String Unit × List Event :=
  match resolveRepoCoordinates repoUrl with
  | none => (.error "Invalid GitHub repository URL", [])
  | some (owner, repo) =>
    if githubOk then (.ok (), [.githubDelete owner repo])
    else (.error "Failed to delete GitHub repository", [.githubDelete owner repo])

/-! ### The four deletion-side endpoints and the provisioning endpoint. -/

/-- `demo.frontend_url || demo.backend_url` truthiness test of the
deletion endpoints. -/
def hasVercelUrls (d : Demo) : Bool :=
  isTruthy d.frontend_url || isTruthy d.backend_url

/-- The rows remaining after `supabase.from('demos').delete().eq('id', demoId)`. -/
def dbAfterDelete (db : List Demo) (did : List Char) : List Demo :=
  db.filter (fun d => decide (d.id ≠ did))

/-- `DELETE /delete-vercel-deployments`: validate the demo id, load the
record (404 when absent), and when a result URL is set run
`deleteVercelDeployments`, whose thrown error becomes a 500; the success
branches answer with the messages of the source. -/
def deleteVercelDeploymentsEndpoint (demoId : Option (List Char)) (w : World) : Response :=
  match demoId with
  | none => ⟨.badRequest, [], w.db⟩
  | some did =>
    if did.isEmpty then ⟨.badRequest, [], w.db⟩
    else
      match findDemo w.db did with
      | none => ⟨.notFound, [], w.db⟩
      | some demo =>
        if hasVercelUrls demo then
          match deleteVercelDeployments demo w.cfg w.api with
          | (.ok _, tr) => ⟨.ok "Vercel deployments deleted successfully", tr, w.db⟩
          | (.error _, tr) => ⟨.serverError, tr, w.db⟩
        else ⟨.ok "No Vercel deployments found", [], w.db⟩

/-- `DELETE /delete-demo-data`: validate the demo id only, load the record
(404 when absent); when a repository URL is set and a token was supplied,
attempt the repository deletion with its error swallowed; always run the
database delete last, whose failure is the thrown 500. -/
def deleteDemoDataEndpoint (demoId githubToken : Option (List Char)) (w : World) : Response :=
  match demoId with
  | none => ⟨.badRequest, [], w.db⟩
  | some did =>
    if did.isEmpty then ⟨.badRequest, [], w.db⟩
    else
      match findDemo w.db did with
      | none => ⟨.notFound, [], w.db⟩
      | some demo =>
        let ghTrace :=
          if isTruthy demo.github_repo_url && isTruthy githubToken then
            (deleteGitHubRepo (demo.github_repo_url.getD []) w.githubOk).2
          else []
        let tr := ghTrace ++ [.dbDelete did]
        if w.dbDeleteOk then
          ⟨.ok "Demo data deleted successfully", tr, dbAfterDelete w.db did⟩
        else ⟨.serverError, tr, w.db⟩

/-- `DELETE /delete-demo` (legacy delete-all): validate demo id and token,
load the record (404 when absent); run the deploy-host deletion pass with
its error swallowed, then the repository deletion with its error
swallowed, then the database delete, whose failure is the thrown 500. -/
def deleteDemoEndpoint (demoId githubToken : Option (List Char)) (w : World) : Response :=
  match demoId, githubToken with
  | some did, some tok =>
    if did.isEmpty || tok.isEmpty then ⟨.badRequest, [], w.db⟩
    else
      match findDemo w.db did with
      | none => ⟨.notFound, [], w.db⟩
      | some demo =>
        let vercelTrace :=
          if hasVercelUrls demo then (deleteVercelDeployments demo w.cfg w.api).2 else []
        let ghTrace :=
          if isTruthy demo.github_repo_url && isTruthy (some tok) then
            (deleteGitHubRepo (demo.github_repo_url.getD []) w.githubOk).2
          else []
        let tr := vercelTrace ++ ghTrace ++ [.dbDelete did]
        if w.dbDeleteOk then
          ⟨.ok "Demo deleted successfully", tr, dbAfterDelete w.db did⟩
        else ⟨.serverError, tr, w.db⟩
  | _, _ => ⟨.badRequest, [], w.db⟩

/-- Response shape of `GET /test-vercel`. -/
inductive TestVercelResult
  | badRequest
  | report (success : Bool) (endpointUsed : String) (projectCount : Nat)
deriving DecidableEq, Repr

/-- `GET /test-vercel`: 400 when no deploy-host credential is configured;
otherwise fetch the team listing when a team id is set, fall through to
the personal listing when that yielded nothing, every fetch failure
swallowed, and report which scope answered and how many projects are
visible. It issues no mutating call. -/
def testVercelEndpoint (cfg : Config) (api : VercelAPI) : TestVercelResult × List Event :=
  if !(isTruthy cfg.vercelToken) then (.badRequest, [])
  else
    let teamStage : List Project × String × List Event :=
      match cfg.teamId with
      | some _ =>
        match api.teamListing with
        | some ps => (ps, "team", [.fetchTeamListing])
        | none => ([], "", [.fetchTeamListing])
      | none => ([], "", [])
    let finalStage : List Project × String × List Event :=
      if teamStage.1.isEmpty then
        match api.personalListing with
        | some qs => (qs, "personal", teamStage.2.2 ++ [.fetchPersonalListing])
        | none => (teamStage.1, teamStage.2.1, teamStage.2.2 ++ [.fetchPersonalListing])
      else teamStage
    (.report (!finalStage.1.isEmpty) finalStage.2.1 finalStage.1.length, finalStage.2.2)

/-- Request body of `POST /generate-demo`, restricted to the validated
fields; absent and empty strings are both falsy. -/
structure GenerateParams where
  customerName : Option (List Char)
  writeKey : Option (List Char)
  profileToken : Option (List Char)
  unifySpaceId : Option (List Char)
  githubToken : Option (List Char)
  supabaseUserId : Option (List Char)
deriving DecidableEq, Repr

/-- The required-field validation of `POST /generate-demo` (the logo URL
is not validated). -/
def validParams (p : GenerateParams) : Bool :=
  isTruthy p.customerName && isTruthy p.writeKey && isTruthy p.profileToken
    && isTruthy p.unifySpaceId && isTruthy p.githubToken && isTruthy p.supabaseUserId

/-- The URLs returned by `generateDemo`. -/
structure DemoResult where
  frontendUrl : List Char
  backendUrl : List Char
  githubRepoUrl : List Char
deriving DecidableEq, Repr

/-- Response shape of `POST /generate-demo`. -/
inductive GenerateResponse
  | ok (result : DemoResult)
  | badRequest
  | serverError
deriving DecidableEq, Repr

/-- `POST /generate-demo`: reject when a required field is missing, 500
when `generateDemo` throws; otherwise insert the Demo Record — a failing
insert is only logged — and answer success with the generated URLs. The
second component records whether a record was actually persisted. -/
def generateDemoEndpoint (p : GenerateParams) (gen : Except String DemoResult)
    (insertOk : Bool) : GenerateResponse × Bool :=
  if validParams p then
    match gen with
    | .ok r => (.ok r, insertOk)
    | .error _ => (.serverError, false)
  else (.badRequest, false)

/-! ### The Unique Name Generator and the deploy-host URL shape
(`generateDemo` in `demoGenerator.ts`). -/

/-- Project names as built in `generateDemo`:
`segment-demo-{slug}-{role}` with a trailing uniqueness suffix appended in
the resulting URL (`segment-demo-${slugify(customerName).toLowerCase()}-frontend-${timestamp}`). -/
def generatedProjectName (slug role suffix : List Char) : List Char :=
  "segment-demo-".data ++ slug ++ "-".data ++ role ++ "-".data ++ suffix

/-- The deploy-host project URL shape `https://{name}.vercel.app`
produced by `generateDemo`. -/
def vercelUrlFor (n : List Char) : List Char :=
  "https://".data ++ n ++ ".vercel.app".data

/-- Modelled from the spec: the output alphabet of the external `slugify`
library (not part of this repository), per the spec's Unique Name
Generator contract — slugify the label to a lowercase, hyphen-delimited
token set, stripping non-alphanumerics; the role token and the base-36
time and random suffixes stay in the same alphabet. -/
def isSlugChar (c : Char) : Bool :=
  decide ('a' ≤ c ∧ c ≤ 'z') || decide ('0' ≤ c ∧ c ≤ '9') || decide (c = '-')

/-- A deploy-host API whose listings no longer contain any project — the
spec's simulation of a second deletion call hitting a pre-cleared
listing. -/
def clearedAPI (delOk : Scope → List Char → Bool) : VercelAPI :=
  ⟨some [], some [], delOk⟩

/-- Replace the deploy-host API oracle of a world. -/
def World.setApi (w : World) (api : VercelAPI) : World :=
  ⟨w.cfg, api, w.githubOk, w.dbDeleteOk, w.db⟩

/-- Replace the record-store contents of a world. -/
def World.setDb (w : World) (db : List Demo) : World :=
  ⟨w.cfg, w.api, w.githubOk, w.dbDeleteOk, db⟩

/-! ### Helper lemmas on the string machinery. -/

theorem isPrefixOf_self_append (l r : List Char) : l.isPrefixOf (l ++ r) = true := by
  induction l with
  | nil => simp [List.isPrefixOf]
  | cons c t ih => simp [List.isPrefixOf, ih]

theorem isPrefixOf_self (l : List Char) : l.isPrefixOf l = true := by
  have h := isPrefixOf_self_append l []
  rwa [List.append_nil] at h

theorem afterLit_append (pat r : List Char) : afterLit pat (pat ++ r) = some r := by
  rw [afterLit, isPrefixOf_self_append]
  simp

theorem takeWhile_append_stop (p : Char → Bool) (l : List Char) (x : Char) (r : List Char)
    (hl : ∀ c ∈ l, p c = true) (hx : p x = false) :
    (l ++ x :: r).takeWhile p = l := by
  induction l with
  | nil => simp [List.takeWhile, hx]
  | cons c t ih =>
    have hc : p c = true := hl c (List.mem_cons_self c t)
    have ht : ∀ c ∈ t, p c = true := fun d hd => hl d (List.mem_cons_of_mem c hd)
    simp [List.takeWhile, hc, ih ht]

theorem splitHyphen_ne_nil (l : List Char) : splitHyphen l ≠ [] := by
  cases l with
  | nil => simp [splitHyphen]
  | cons c t =>
    by_cases hc : c = '-' <;> simp [splitHyphen, hc, consHead]
    cases splitHyphen t <;> simp [consHead]

theorem consHead_append (c : Char) (L M : List (List Char)) (h : L ≠ []) :
    consHead c (L ++ M) = consHead c L ++ M := by
  cases L with
  | nil => exact absurd rfl h
  | cons s ss => simp [consHead]

theorem splitHyphen_append (xs ys : List Char) :
    splitHyphen (xs ++ '-' :: ys) = splitHyphen xs ++ splitHyphen ys := by
  induction xs with
  | nil => simp [splitHyphen]
  | cons c t ih =>
    by_cases hc : c = '-'
    · simp [splitHyphen, hc, ih]
    · simp [splitHyphen, hc, ih, consHead_append c _ _ (splitHyphen_ne_nil t)]

theorem splitHyphen_no_hyphen (l : List Char) (h : '-' ∉ l) : splitHyphen l = [l] := by
  induction l with
  | nil => simp [splitHyphen]
  | cons c t ih =>
    have hc : c ≠ '-' := fun hh => h (hh ▸ List.mem_cons_self c t)
    have ht : '-' ∉ t := fun hh => h (List.mem_cons_of_mem c hh)
    simp [splitHyphen, hc, ih ht, consHead]

theorem joinHyphen_consHead (c : Char) (L : List (List Char)) (h : L ≠ []) :
    joinHyphen (consHead c L) = c :: joinHyphen L := by
  match L with
  | [] => exact absurd rfl h
  | [s] => simp [consHead, joinHyphen]
  | s :: s2 :: ss => simp [consHead, joinHyphen]

theorem joinHyphen_splitHyphen (l : List Char) : joinHyphen (splitHyphen l) = l := by
  induction l with
  | nil => simp [splitHyphen, joinHyphen]
  | cons c t ih =>
    by_cases hc : c = '-'
    · subst hc
      have hne := splitHyphen_ne_nil t
      cases hsp : splitHyphen t with
      | nil => exact absurd hsp hne
      | cons s ss =>
        rw [hsp] at ih
        simp [splitHyphen, joinHyphen, hsp, ih]
    · simp [splitHyphen, hc, joinHyphen_consHead c _ (splitHyphen_ne_nil t), ih]

theorem dropLast_append_two (l : List α) (a b : α) :
    ((l ++ [a, b]).dropLast).dropLast = l := by
  have h1 : l ++ [a, b] = (l ++ [a]) ++ [b] := by simp
  rw [h1, List.dropLast_concat, List.dropLast_concat]

theorem generatedProjectName_decomp (slug role suffix : List Char) :
    generatedProjectName slug role suffix =
      "segment".data ++ '-' :: ("demo".data ++ '-' :: (slug ++ '-' :: (role ++ '-' :: suffix))) := by
  show "segment-demo-".data ++ slug ++ "-".data ++ role ++ "-".data ++ suffix = _
  have hd : "segment-demo-".data = "segment".data ++ '-' :: "demo".data ++ ['-'] := by rfl
  rw [hd]
  simp [List.append_assoc]

theorem splitHyphen_generated (slug role suffix : List Char)
    (hr : '-' ∉ role) (hx : '-' ∉ suffix) :
    splitHyphen (generatedProjectName slug role suffix) =
      "segment".data :: "demo".data :: (splitHyphen slug ++ [role, suffix]) := by
  rw [generatedProjectName_decomp, splitHyphen_append, splitHyphen_append,
    splitHyphen_append, splitHyphen_append, splitHyphen_no_hyphen role hr,
    splitHyphen_no_hyphen suffix hx]
  have h1 : splitHyphen "segment".data = ["segment".data] := by decide
  have h2 : splitHyphen "demo".data = ["demo".data] := by decide
  rw [h1, h2]
  simp

theorem heuristicSlug_generated (slug role suffix : List Char)
    (hr : '-' ∉ role) (hx : '-' ∉ suffix) :
    heuristicSlug (generatedProjectName slug role suffix) = slug := by
  rw [heuristicSlug, splitHyphen_generated slug role suffix hr hx]
  show joinHyphen (((splitHyphen slug ++ [role, suffix]).dropLast).dropLast) = slug
  rw [dropLast_append_two, joinHyphen_splitHyphen]

theorem vercelMatchAt_roundtrip (n : List Char) (hne : n.isEmpty = false)
    (hnd : ∀ c ∈ n, notDot c = true) :
    vercelMatchAt (vercelUrlFor n) = some n := by
  have h0 : vercelUrlFor n = "https://".data ++ (n ++ ".vercel.app".data) := by
    rw [vercelUrlFor, List.append_assoc]
  have hsfx : ".vercel.app".data = '.' :: "vercel.app".data := by rfl
  have htw : (n ++ ".vercel.app".data).takeWhile notDot = n := by
    rw [hsfx]
    exact takeWhile_append_stop _ n '.' _ hnd (by decide)
  rw [h0]
  unfold vercelMatchAt
  rw [afterLit_append]
  simp [htw, hne, List.drop_left, isPrefixOf_self]

theorem extract_of_matchAt (s r : List Char) (h : vercelMatchAt s = some r) :
    extractProjectNameFromUrl s = some r := by
  cases s with
  | nil =>
    have hnil : vercelMatchAt [] = none := by decide
    rw [hnil] at h
    cases h
  | cons c t => simp [extractProjectNameFromUrl, h]

theorem isSlugChar_ne_dot (c : Char) (h : isSlugChar c = true) : notDot c = true := by
  by_contra hc
  have hcc : c = '.' := by simpa [notDot] using hc
  subst hcc
  exact absurd h (by decide)

/-! ### Helper lemmas on the deletion pipeline. -/

theorem fetchProjects_events (cfg : Config) (api : VercelAPI) :
    ((fetchProjects cfg api).2).all Event.isVercel = true := by
  unfold fetchProjects
  rcases cfg.teamId with _ | t
  · rcases api.personalListing with _ | qs <;> simp [Event.isVercel]
  · rcases api.teamListing with _ | ps
    · rcases api.personalListing with _ | qs <;> simp [Event.isVercel]
    · by_cases hps : ps.isEmpty
      · rcases api.personalListing with _ | qs <;> simp [hps, Event.isVercel]
      · simp [hps, Event.isVercel]

theorem deleteVercelProject_events (name : List Char) (cfg : Config) (api : VercelAPI) :
    ((deleteVercelProject name cfg api).2).all Event.isVercel = true := by
  have hf := fetchProjects_events cfg api
  unfold deleteVercelProject
  rcases hfp : fetchProjects cfg api with ⟨r, tr⟩
  rw [hfp] at hf
  rcases r with e | ⟨projects, scope⟩
  · simpa using hf
  · rcases hq : findProjectFuzzy name projects with _ | project
    · simp only [hq]
      simpa [Event.isVercel] using hf
    · by_cases hd : api.deleteOk scope project.id <;>
        simp_all [hq, Event.isVercel]

theorem deleteVercelDeployments_events (demo : Demo) (cfg : Config) (api : VercelAPI) :
    ((deleteVercelDeployments demo cfg api).2).all Event.isVercel = true := by
  unfold deleteVercelDeployments
  by_cases ht : isTruthy cfg.vercelToken
  · rcases hfr : frontendProjectName demo with _ | f
    · rcases hbk : backendProjectName demo with _ | b
      · simp [ht, hfr, hbk]
      · simpa [ht, hfr, hbk] using deleteVercelProject_events b cfg api
    · have h1 := deleteVercelProject_events f cfg api
      rcases h1f : deleteVercelProject f cfg api with ⟨r1, tr1⟩
      rw [h1f] at h1
      rcases r1 with e | u
      · simpa [ht, hfr, h1f] using h1
      · rcases hbk : backendProjectName demo with _ | b
        · simpa [ht, hfr, hbk, h1f] using h1
        · have h2 := deleteVercelProject_events b cfg api
          rcases h2f : deleteVercelProject b cfg api with ⟨r2, tr2⟩
          rw [h2f] at h2
          rcases r2 with e | u <;> simp_all [ht, hfr, hbk]
  · simp [ht]

theorem deleteGitHubRepo_events (u : List Char) (ok : Bool) :
    ((deleteGitHubRepo u ok).2).all Event.isGithub = true := by
  unfold deleteGitHubRepo
  rcases hrc : resolveRepoCoordinates u with _ | ⟨o, r⟩
  · simp [hrc]
  · by_cases h : ok <;> simp [hrc, h, Event.isGithub]

theorem findProjectFuzzy_nil (name : List Char) : findProjectFuzzy name [] = none := by
  simp [findProjectFuzzy]

theorem fetchProjects_cleared (cfg : Config) (delOk : Scope → List Char → Bool) :
    (fetchProjects cfg (clearedAPI delOk)).1 = .ok ([], .personal) := by
  unfold fetchProjects clearedAPI
  rcases cfg.teamId with _ | t <;> simp

theorem deleteVercelProject_cleared (name : List Char) (cfg : Config)
    (delOk : Scope → List Char → Bool) :
    (deleteVercelProject name cfg (clearedAPI delOk)).1 = .ok () := by
  have hf := fetchProjects_cleared cfg delOk
  unfold deleteVercelProject
  rcases hfp : fetchProjects cfg (clearedAPI delOk) with ⟨r, tr⟩
  rw [hfp] at hf
  subst hf
  simp [findProjectFuzzy_nil]

theorem deleteVercelDeployments_cleared (demo : Demo) (cfg : Config)
    (delOk : Scope → List Char → Bool) :
    (deleteVercelDeployments demo cfg (clearedAPI delOk)).1 = .ok () := by
  unfold deleteVercelDeployments
  by_cases ht : isTruthy cfg.vercelToken
  · rcases hfr : frontendProjectName demo with _ | f
    · rcases hbk : backendProjectName demo with _ | b
      · simp [ht, hfr, hbk]
      · simpa [ht, hfr, hbk] using deleteVercelProject_cleared b cfg delOk
    · have h1 := deleteVercelProject_cleared f cfg delOk
      rcases h1f : deleteVercelProject f cfg (clearedAPI delOk) with ⟨r1, tr1⟩
      rw [h1f] at h1
      subst h1
      rcases hbk : backendProjectName demo with _ | b
      · simp [ht, hfr, hbk, h1f]
      · have h2 := deleteVercelProject_cleared b cfg delOk
        rcases h2f : deleteVercelProject b cfg (clearedAPI delOk) with ⟨r2, tr2⟩
        rw [h2f] at h2
        subst h2
        simp [ht, hfr, hbk, h1f, h2f]
  · simp [ht]

theorem findDemo_dbAfterDelete (db : List Demo) (did : List Char) :
    findDemo (dbAfterDelete db did) did = none := by
  rw [findDemo, List.find?_eq_none]
  intro d hd
  rw [dbAfterDelete] at hd
  simp only [List.mem_filter, decide_eq_true_eq] at hd
  simpa using hd.2

theorem deleteVercelDeploymentsEndpoint_ok_inv (demoId : Option (List Char)) (w : World)
    (h : ((deleteVercelDeploymentsEndpoint demoId w).http).isOk = true) :
    ∃ did demo, demoId = some did ∧ did.isEmpty = false ∧ findDemo w.db did = some demo := by
  unfold deleteVercelDeploymentsEndpoint at h
  rcases demoId with _ | did
  · simp [HttpResult.isOk] at h
  · by_cases he : did.isEmpty
    · simp [he, HttpResult.isOk] at h
    · rcases hf : findDemo w.db did with _ | demo
      · simp [he, hf, HttpResult.isOk] at h
      · exact ⟨did, demo, rfl, by simpa using he, hf⟩

theorem deleteVercelDeploymentsEndpoint_db (demoId : Option (List Char)) (w : World) :
    (deleteVercelDeploymentsEndpoint demoId w).db = w.db := by
  unfold deleteVercelDeploymentsEndpoint
  rcases demoId with _ | did
  · rfl
  · by_cases he : did.isEmpty
    · simp [he]
    · rcases hf : findDemo w.db did with _ | demo
      · simp [he, hf]
      · by_cases hu : hasVercelUrls demo
        · rcases hd : deleteVercelDeployments demo w.cfg w.api with ⟨r, tr⟩
          rcases r with e | u <;> simp [he, hf, hu, hd]
        · simp [he, hf, hu]

theorem deleteDemoDataEndpoint_ok_inv (demoId tok : Option (List Char)) (w : World)
    (h : ((deleteDemoDataEndpoint demoId tok w).http).isOk = true) :
    ∃ did demo, demoId = some did ∧ did.isEmpty = false ∧ findDemo w.db did = some demo
      ∧ w.dbDeleteOk = true
      ∧ (deleteDemoDataEndpoint demoId tok w).db = dbAfterDelete w.db did := by
  rcases demoId with _ | did
  · simp [deleteDemoDataEndpoint, HttpResult.isOk] at h
  · by_cases he : did.isEmpty
    · simp [deleteDemoDataEndpoint, he, HttpResult.isOk] at h
    · rcases hf : findDemo w.db did with _ | demo
      · simp [deleteDemoDataEndpoint, he, hf, HttpResult.isOk] at h
      · by_cases hdb : w.dbDeleteOk
        · exact ⟨did, demo, rfl, by simpa using he, hf, hdb,
            by simp [deleteDemoDataEndpoint, he, hf, hdb]⟩
        · simp [deleteDemoDataEndpoint, he, hf, hdb, HttpResult.isOk] at h

theorem deleteDemoEndpoint_ok_inv (demoId tok : Option (List Char)) (w : World)
    (h : ((deleteDemoEndpoint demoId tok w).http).isOk = true) :
    ∃ did t demo, demoId = some did ∧ tok = some t
      ∧ (did.isEmpty || t.isEmpty) = false ∧ findDemo w.db did = some demo
      ∧ w.dbDeleteOk = true
      ∧ (deleteDemoEndpoint demoId tok w).db = dbAfterDelete w.db did := by
  rcases demoId with _ | did
  · simp [deleteDemoEndpoint, HttpResult.isOk] at h
  · rcases tok with _ | t
    · simp [deleteDemoEndpoint, HttpResult.isOk] at h
    · by_cases he : did.isEmpty || t.isEmpty
      · simp [deleteDemoEndpoint, he, HttpResult.isOk] at h
      · rcases hf : findDemo w.db did with _ | demo
        · simp [deleteDemoEndpoint, he, hf, HttpResult.isOk] at h
        · by_cases hdb : w.dbDeleteOk
          · exact ⟨did, t, demo, rfl, rfl, by simpa using he, hf, hdb,
              by simp [deleteDemoEndpoint, he, hf, hdb]⟩
          · simp [deleteDemoEndpoint, he, hf, hdb, HttpResult.isOk] at h

/-! ### The claims. -/

/-- C4: for every demo whose record lookup succeeds, delete-data attempts
the database-record delete even when the preceding repository-deletion
step failed (that failure is swallowed); the database delete is always
the last step, and a database-delete failure is the only step failure
surfaced as failure of the call. -/
theorem C4_delete_data_db_last_only_fatal (w : World) (did : List Char)
    (tok : Option (List Char)) (demo : Demo)
    (hdid : did.isEmpty = false) (hfind : findDemo w.db did = some demo) :
    (∃ pre, (deleteDemoDataEndpoint (some did) tok w).trace = pre ++ [Event.dbDelete did]
        ∧ pre.all Event.isGithub = true)
      ∧ (((deleteDemoDataEndpoint (some did) tok w).http).isOk = true ↔ w.dbDeleteOk = true)
      ∧ (w.dbDeleteOk = true →
          findDemo (deleteDemoDataEndpoint (some did) tok w).db did = none) := by
  refine ⟨⟨(if (isTruthy demo.github_repo_url && isTruthy tok) then
      (deleteGitHubRepo (demo.github_repo_url.getD []) w.githubOk).2 else []), ?_, ?_⟩, ?_, ?_⟩
  · by_cases hdb : w.dbDeleteOk <;>
      by_cases hg : isTruthy demo.github_repo_url && isTruthy tok <;>
        simp [deleteDemoDataEndpoint, hdid, hfind, hdb, hg]
  · by_cases hg : isTruthy demo.github_repo_url && isTruthy tok <;>
      simp [hg, deleteGitHubRepo_events]
  · by_cases hdb : w.dbDeleteOk <;>
      simp [deleteDemoDataEndpoint, hdid, hfind, hdb, HttpResult.isOk]
  · intro hdb
    have hdbeq : (deleteDemoDataEndpoint (some did) tok w).db = dbAfterDelete w.db did := by
      simp [deleteDemoDataEndpoint, hdid, hfind, hdb]
    rw [hdbeq]
    exact findDemo_dbAfterDelete w.db did

/-- C4 witness: a concrete world whose repository deletion fails
(`githubOk = false`) while the database delete succeeds; the call still
ends with the database delete and reports success, and the row is gone. -/
theorem C4_delete_data_db_last_only_fatal_witness :
    (∃ pre, (deleteDemoDataEndpoint (some "d1".data) (some "tok".data)
        ⟨⟨none, none⟩, ⟨none, none, fun _ _ => false⟩, false, true,
          [⟨"d1".data, none, none, some "https://github.com/alice/repo1".data⟩]⟩).trace =
          pre ++ [Event.dbDelete "d1".data] ∧ pre.all Event.isGithub = true)
      ∧ (((deleteDemoDataEndpoint (some "d1".data) (some "tok".data)
          ⟨⟨none, none⟩, ⟨none, none, fun _ _ => false⟩, false, true,
            [⟨"d1".data, none, none, some "https://github.com/alice/repo1".data⟩]⟩).http).isOk
            = true ↔ True)
      ∧ findDemo (deleteDemoDataEndpoint (some "d1".data) (some "tok".data)
          ⟨⟨none, none⟩, ⟨none, none, fun _ _ => false⟩, false, true,
            [⟨"d1".data, none, none, some "https://github.com/alice/repo1".data⟩]⟩).db
          "d1".data = none := by
  have h := C4_delete_data_db_last_only_fatal
    ⟨⟨none, none⟩, ⟨none, none, fun _ _ => false⟩, false, true,
      [⟨"d1".data, none, none, some "https://github.com/alice/repo1".data⟩]⟩
    "d1".data (some "tok".data)
    ⟨"d1".data, none, none, some "https://github.com/alice/repo1".data⟩
    (by decide) (by decide)
  exact ⟨h.1, by simpa using h.2.1, h.2.2 rfl⟩

/-- C5: within the combined delete-all endpoint, every deploy-host
deletion call is attempted strictly before every repository-deletion
call, and the repository deletion strictly before the database-record
delete, which comes last. -/
theorem C5_delete_all_ordering (w : World) (did tok : List Char) (demo : Demo)
    (hdid : did.isEmpty = false) (htok : tok.isEmpty = false)
    (hfind : findDemo w.db did = some demo) :
    ∃ t1 t2, (deleteDemoEndpoint (some did) (some tok) w).trace
        = t1 ++ t2 ++ [Event.dbDelete did]
      ∧ t1.all Event.isVercel = true ∧ t2.all Event.isGithub = true := by
  refine ⟨(if hasVercelUrls demo then (deleteVercelDeployments demo w.cfg w.api).2 else []),
    (if (isTruthy demo.github_repo_url && isTruthy (some tok)) then
      (deleteGitHubRepo (demo.github_repo_url.getD []) w.githubOk).2 else []), ?_, ?_, ?_⟩
  · by_cases hdb : w.dbDeleteOk <;>
      simp [deleteDemoEndpoint, hdid, htok, hfind, hdb]
  · by_cases hu : hasVercelUrls demo <;> simp [hu, deleteVercelDeployments_events]
  · by_cases hg : isTruthy demo.github_repo_url && isTruthy (some tok) <;>
      simp [hg, deleteGitHubRepo_events]

/-- C5 witness: a concrete delete-all run in which all three stages issue
calls, in deploy-host, code-host, database order. -/
theorem C5_delete_all_ordering_witness :
    ∃ t1 t2, (deleteDemoEndpoint (some "d1".data) (some "tok".data)
        ⟨⟨some "vt".data, none⟩,
          ⟨none, some [⟨"fe-proj".data, "p1".data⟩], fun _ _ => true⟩, true, true,
          [⟨"d1".data, some "https://fe-proj.vercel.app".data, none,
            some "https://github.com/alice/repo1".data⟩]⟩).trace
        = t1 ++ t2 ++ [Event.dbDelete "d1".data]
      ∧ t1.all Event.isVercel = true ∧ t2.all Event.isGithub = true :=
  C5_delete_all_ordering
    ⟨⟨some "vt".data, none⟩,
      ⟨none, some [⟨"fe-proj".data, "p1".data⟩], fun _ _ => true⟩, true, true,
      [⟨"d1".data, some "https://fe-proj.vercel.app".data, none,
        some "https://github.com/alice/repo1".data⟩]⟩
    "d1".data "tok".data
    ⟨"d1".data, some "https://fe-proj.vercel.app".data, none,
      some "https://github.com/alice/repo1".data⟩
    (by decide) (by decide) (by decide)

/-- C6: the fuzzy matcher applies its passes in strict order with the
first match winning — a listing containing an exact match always yields
an entry carrying exactly the target name, the substring pass is
consulted only once the exact pass found nothing, and on generator-shaped
names the heuristic pass strips the role token and trailing uniqueness
suffix, recovering exactly the display-name slug. -/
theorem C6_fuzzy_match_pass_order :
    (∀ (target : List Char) (projects : List Project) (p : Project), p ∈ projects →
        p.name = target →
        ∃ q, findProjectFuzzy target projects = some q ∧ q.name = target)
      ∧ (∀ (target : List Char) (projects : List Project) (q : Project),
          projects.find? (fun p => decide (p.name = target)) = none →
          projects.find? (substrMatch target) = some q →
          findProjectFuzzy target projects = some q)
      ∧ (∀ slug role suffix : List Char, '-' ∉ role → '-' ∉ suffix →
          heuristicSlug (generatedProjectName slug role suffix) = slug) := by
  refine ⟨?_, ?_, ?_⟩
  · intro target projects p hp hname
    have hsome : (projects.find? (fun p => decide (p.name = target))).isSome := by
      rw [List.find?_isSome]
      exact ⟨p, hp, by simp [hname]⟩
    rcases hq : projects.find? (fun p => decide (p.name = target)) with _ | q
    · rw [hq] at hsome
      cases hsome
    · have hqn : q.name = target := by simpa using List.find?_some hq
      exact ⟨q, by simp [findProjectFuzzy, hq], hqn⟩
  · intro target projects q h1 h2
    simp [findProjectFuzzy, h1, h2]
  · intro slug role suffix hr hx
    exact heuristicSlug_generated slug role suffix hr hx

/-- C6 witness: a listing whose first entry is only a loose partial match
and whose second entry is the exact match still resolves to the exact
name; a listing with no exact or substring match falls to the slug
heuristic, which recovers the display-name slug of a generated name. -/
theorem C6_fuzzy_match_pass_order_witness :
    (∃ q, findProjectFuzzy "tgt".data
        [⟨"tgt-partial-old".data, "p0".data⟩, ⟨"tgt".data, "p1".data⟩] = some q
      ∧ q.name = "tgt".data)
      ∧ heuristicSlug (generatedProjectName "acme-corp".data "frontend".data "m81xq2".data)
          = "acme-corp".data :=
  ⟨C6_fuzzy_match_pass_order.1 "tgt".data
      [⟨"tgt-partial-old".data, "p0".data⟩, ⟨"tgt".data, "p1".data⟩]
      ⟨"tgt".data, "p1".data⟩ (by decide) (by decide),
    C6_fuzzy_match_pass_order.2.2 "acme-corp".data "frontend".data "m81xq2".data
      (by decide) (by decide)⟩

/-- C7: the resolver round-trips the Unique Name Generator — for a name
built by the generator (whose slug, role and suffix stay in the slug
alphabet), embedding the name in the deploy-host URL shape and resolving
it returns exactly the name. -/
theorem C7_resolve_roundtrips_generator (slug role suffix : List Char)
    (hs : ∀ c ∈ slug, isSlugChar c = true)
    (hr : ∀ c ∈ role, isSlugChar c = true)
    (hx : ∀ c ∈ suffix, isSlugChar c = true) :
    extractProjectNameFromUrl (vercelUrlFor (generatedProjectName slug role suffix)) =
      some (generatedProjectName slug role suffix) := by
  apply extract_of_matchAt
  apply vercelMatchAt_roundtrip
  · rw [generatedProjectName_decomp]
    rfl
  · intro c hc
    have hlit1 : ∀ x ∈ "segment-demo-".data, notDot x = true := by decide
    have hlit2 : ∀ x ∈ "-".data, notDot x = true := by decide
    rw [generatedProjectName] at hc
    simp only [List.mem_append] at hc
    rcases hc with ((((h1 | h2) | h3) | h4) | h5) | h6
    · exact hlit1 c h1
    · exact isSlugChar_ne_dot c (hs c h2)
    · exact hlit2 c h3
    · exact isSlugChar_ne_dot c (hr c h4)
    · exact hlit2 c h5
    · exact isSlugChar_ne_dot c (hx c h6)

/-- C7 witness: the concrete generated name
`segment-demo-acme-frontend-m81xq2` survives the URL round trip. -/
theorem C7_resolve_roundtrips_generator_witness :
    extractProjectNameFromUrl
        (vercelUrlFor (generatedProjectName "acme".data "frontend".data "m81xq2".data)) =
      some (generatedProjectName "acme".data "frontend".data "m81xq2".data) :=
  C7_resolve_roundtrips_generator "acme".data "frontend".data "m81xq2".data
    (by decide) (by decide) (by decide)

/-- C9: when every generation step has completed and only the Demo Record
insert fails, the provisioning endpoint still answers success with the
generated URLs; the persistence failure changes nothing in the response,
only whether a row was persisted. -/
theorem C9_insert_failure_still_success (p : GenerateParams) (r : DemoResult)
    (hv : validParams p = true) :
    generateDemoEndpoint p (.ok r) false = (.ok r, false)
      ∧ (generateDemoEndpoint p (.ok r) false).1 = (generateDemoEndpoint p (.ok r) true).1 := by
  simp [generateDemoEndpoint, hv]

/-- C9 witness: a concrete valid request whose insert fails still gets a
success response carrying the generated URLs. -/
theorem C9_insert_failure_still_success_witness :
    generateDemoEndpoint
        ⟨some "acme".data, some "wk".data, some "pt".data, some "us".data,
          some "gt".data, some "uid".data⟩
        (.ok ⟨"https://f.vercel.app".data, "https://b.vercel.app".data,
          "https://github.com/a/r".data⟩) false =
      (.ok ⟨"https://f.vercel.app".data, "https://b.vercel.app".data,
        "https://github.com/a/r".data⟩, false)
      ∧ (generateDemoEndpoint
          ⟨some "acme".data, some "wk".data, some "pt".data, some "us".data,
            some "gt".data, some "uid".data⟩
          (.ok ⟨"https://f.vercel.app".data, "https://b.vercel.app".data,
            "https://github.com/a/r".data⟩) false).1 =
        (generateDemoEndpoint
          ⟨some "acme".data, some "wk".data, some "pt".data, some "us".data,
            some "gt".data, some "uid".data⟩
          (.ok ⟨"https://f.vercel.app".data, "https://b.vercel.app".data,
            "https://github.com/a/r".data⟩) true).1 :=
  C9_insert_failure_still_success
    ⟨some "acme".data, some "wk".data, some "pt".data, some "us".data,
      some "gt".data, some "uid".data⟩
    ⟨"https://f.vercel.app".data, "https://b.vercel.app".data,
      "https://github.com/a/r".data⟩ (by decide)

/-- C10: with no process-level deploy-host credential configured, the
delete-deployments endpoint, for a record with a result URL set, answers
success with the message of the source while issuing zero deploy-host API
calls and leaving the record store unchanged. -/
theorem C10_missing_token_silent_success (w : World) (did : List Char) (demo : Demo)
    (htok : w.cfg.vercelToken = none)
    (hdid : did.isEmpty = false)
    (hfind : findDemo w.db did = some demo)
    (hurl : hasVercelUrls demo = true) :
    deleteVercelDeploymentsEndpoint (some did) w =
      ⟨.ok "Vercel deployments deleted successfully", [], w.db⟩ := by
  have hdel : deleteVercelDeployments demo w.cfg w.api = (.ok (), []) := by
    unfold deleteVercelDeployments
    simp [isTruthy, htok]
  simp [deleteVercelDeploymentsEndpoint, hdid, hfind, hurl, hdel]

/-- C10 witness: a concrete token-less world with both URLs set — the
endpoint answers the success message with an empty call trace. -/
theorem C10_missing_token_silent_success_witness :
    deleteVercelDeploymentsEndpoint (some "d1".data)
        ⟨⟨none, none⟩, ⟨none, none, fun _ _ => false⟩, true, true,
          [⟨"d1".data, some "https://fe-proj.vercel.app".data,
            some "https://be-proj.vercel.app".data, none⟩]⟩ =
      ⟨.ok "Vercel deployments deleted successfully", [],
        [⟨"d1".data, some "https://fe-proj.vercel.app".data,
          some "https://be-proj.vercel.app".data, none⟩]⟩ :=
  C10_missing_token_silent_success
    ⟨⟨none, none⟩, ⟨none, none, fun _ _ => false⟩, true, true,
      [⟨"d1".data, some "https://fe-proj.vercel.app".data,
        some "https://be-proj.vercel.app".data, none⟩]⟩
    "d1".data
    ⟨"d1".data, some "https://fe-proj.vercel.app".data,
      some "https://be-proj.vercel.app".data, none⟩
    rfl (by decide) (by decide) (by decide)

/-- C1 counterexample: a record whose two URLs both resolve to project
names, against a listing containing the frontend project whose delete
fails — the pass ends with the frontend failure and the trace holds no
call for the backend project, refuting per-project independence inside
delete-deployments. -/
theorem C1_counterexample :
    backendProjectName
        ⟨"d1".data, some "https://fe-proj.vercel.app".data,
          some "https://be-proj.vercel.app".data, none⟩ = some "be-proj".data
      ∧ deleteVercelDeployments
          ⟨"d1".data, some "https://fe-proj.vercel.app".data,
            some "https://be-proj.vercel.app".data, none⟩
          ⟨some "vt".data, none⟩
          ⟨none, some [⟨"fe-proj".data, "p1".data⟩], fun _ _ => false⟩ =
        (.error "Failed to delete Vercel project",
          [Event.fetchPersonalListing, Event.vercelDelete .personal "p1".data]) :=
  ⟨rfl, rfl⟩

/-- C1 amended: inside delete-deployments a propagated failure on the
frontend project ends the pass before any backend attempt (the result is
the frontend error with exactly the frontend call trace); in the combined
delete-all operation, however, a deploy-host failure does not prevent the
repository-deletion attempt. -/
theorem C1_frontend_failure_blocks_backend_not_repo :
    (∀ (demo : Demo) (cfg : Config) (api : VercelAPI) (f : List Char) (e : String),
        isTruthy cfg.vercelToken = true →
        frontendProjectName demo = some f →
        (deleteVercelProject f cfg api).1 = .error e →
        deleteVercelDeployments demo cfg api = (.error e, (deleteVercelProject f cfg api).2))
      ∧ (∀ (w : World) (did tok : List Char) (demo : Demo) (u owner repo : List Char),
          did.isEmpty = false → tok.isEmpty = false →
          findDemo w.db did = some demo →
          demo.github_repo_url = some u → u.isEmpty = false →
          resolveRepoCoordinates u = some (owner, repo) →
          Event.githubDelete owner repo ∈ (deleteDemoEndpoint (some did) (some tok) w).trace) := by
  constructor
  · intro demo cfg api f e ht hf herr
    rcases hd : deleteVercelProject f cfg api with ⟨r, tr⟩
    rw [hd] at herr
    have hr : r = Except.error e := herr
    subst hr
    simp [deleteVercelDeployments, ht, hf, hd]
  · intro w did tok demo u owner repo hdid htok hfind hgu hu hrc
    have hgt : (deleteGitHubRepo u w.githubOk).2 = [Event.githubDelete owner repo] := by
      unfold deleteGitHubRepo
      rw [hrc]
      by_cases hg : w.githubOk <;> simp [hg]
    by_cases hdb : w.dbDeleteOk <;>
      simp [deleteDemoEndpoint, hdid, htok, hfind, hgu, hu, isTruthy, hgt, hdb]

/-- C1 amended witness: the counterexample world run through delete-all
still reaches the repository deletion after the deploy-host failure. -/
theorem C1_frontend_failure_blocks_backend_not_repo_witness :
    deleteVercelDeployments
        ⟨"d2".data, some "https://fe-proj.vercel.app".data, none, none⟩
        ⟨some "vt".data, none⟩
        ⟨none, some [⟨"fe-proj".data, "p1".data⟩], fun _ _ => false⟩ =
      (.error "Failed to delete Vercel project",
        (deleteVercelProject "fe-proj".data ⟨some "vt".data, none⟩
          ⟨none, some [⟨"fe-proj".data, "p1".data⟩], fun _ _ => false⟩).2)
      ∧ Event.githubDelete "alice".data "repo1".data ∈
          (deleteDemoEndpoint (some "d2".data) (some "tok".data)
            ⟨⟨some "vt".data, none⟩,
              ⟨none, some [⟨"fe-proj".data, "p1".data⟩], fun _ _ => false⟩, false, true,
              [⟨"d2".data, some "https://fe-proj.vercel.app".data, none,
                some "https://github.com/alice/repo1".data⟩]⟩).trace :=
  ⟨C1_frontend_failure_blocks_backend_not_repo.1
      ⟨"d2".data, some "https://fe-proj.vercel.app".data, none, none⟩
      ⟨some "vt".data, none⟩
      ⟨none, some [⟨"fe-proj".data, "p1".data⟩], fun _ _ => false⟩
      "fe-proj".data "Failed to delete Vercel project" (by decide) (by decide) rfl,
    C1_frontend_failure_blocks_backend_not_repo.2
      ⟨⟨some "vt".data, none⟩,
        ⟨none, some [⟨"fe-proj".data, "p1".data⟩], fun _ _ => false⟩, false, true,
        [⟨"d2".data, some "https://fe-proj.vercel.app".data, none,
          some "https://github.com/alice/repo1".data⟩]⟩
      "d2".data "tok".data
      ⟨"d2".data, some "https://fe-proj.vercel.app".data, none,
        some "https://github.com/alice/repo1".data⟩
      "https://github.com/alice/repo1".data "alice".data "repo1".data
      (by decide) (by decide) (by decide) (by decide) (by decide) (by decide)⟩

/-- C2 counterexample: a world in which the record lookup succeeds yet a
propagated deploy-host deletion failure turns the HTTP-level outcome of
delete-deployments into a 500 error, refuting the claim that provider
failures never change the HTTP-level outcome. -/
theorem C2_counterexample :
    findDemo
        [⟨"d1".data, some "https://fe-proj.vercel.app".data, none, none⟩] "d1".data =
      some ⟨"d1".data, some "https://fe-proj.vercel.app".data, none, none⟩
      ∧ (deleteVercelDeploymentsEndpoint (some "d1".data)
          ⟨⟨some "vt".data, none⟩,
            ⟨none, some [⟨"fe-proj".data, "p1".data⟩], fun _ _ => false⟩, true, true,
            [⟨"d1".data, some "https://fe-proj.vercel.app".data, none, none⟩]⟩).http =
        .serverError :=
  ⟨rfl, rfl⟩

/-- C2 amended: when the record lookup succeeds the outcome is either
success or a 500, and the 500 happens exactly when a result URL is set
and the deploy-host deletion pass propagates a failure (swallowed
not-found outcomes still answer success). -/
theorem C2_provider_failure_changes_outcome (w : World) (did : List Char) (demo : Demo)
    (hdid : did.isEmpty = false) (hfind : findDemo w.db did = some demo) :
    (((deleteVercelDeploymentsEndpoint (some did) w).http).isOk = true
        ∨ (deleteVercelDeploymentsEndpoint (some did) w).http = .serverError)
      ∧ ((deleteVercelDeploymentsEndpoint (some did) w).http = .serverError
          ↔ hasVercelUrls demo = true
            ∧ ∃ e, (deleteVercelDeployments demo w.cfg w.api).1 = .error e) := by
  by_cases hu : hasVercelUrls demo
  · rcases hd : deleteVercelDeployments demo w.cfg w.api with ⟨r, tr⟩
    rcases r with e | uu
    · exact ⟨Or.inr
        (by simp [deleteVercelDeploymentsEndpoint, hdid, hfind, hu, hd]),
        by simp [deleteVercelDeploymentsEndpoint, hdid, hfind, hu, hd]⟩
    · exact ⟨Or.inl
        (by simp [deleteVercelDeploymentsEndpoint, hdid, hfind, hu, hd, HttpResult.isOk]),
        by simp [deleteVercelDeploymentsEndpoint, hdid, hfind, hu, hd]⟩
  · exact ⟨Or.inl
      (by simp [deleteVercelDeploymentsEndpoint, hdid, hfind, hu, HttpResult.isOk]),
      by simp [deleteVercelDeploymentsEndpoint, hdid, hfind, hu]⟩

/-- C2 amended witness: the counterexample world is in the
success-or-500 dichotomy the amended claim states. -/
theorem C2_provider_failure_changes_outcome_witness :
    ((deleteVercelDeploymentsEndpoint (some "d3".data)
        ⟨⟨some "vt".data, none⟩,
          ⟨none, some [⟨"fe-proj".data, "p1".data⟩], fun _ _ => false⟩, true, true,
          [⟨"d3".data, some "https://fe-proj.vercel.app".data, none, none⟩]⟩).http).isOk = true
      ∨ (deleteVercelDeploymentsEndpoint (some "d3".data)
          ⟨⟨some "vt".data, none⟩,
            ⟨none, some [⟨"fe-proj".data, "p1".data⟩], fun _ _ => false⟩, true, true,
            [⟨"d3".data, some "https://fe-proj.vercel.app".data, none, none⟩]⟩).http =
        .serverError :=
  (C2_provider_failure_changes_outcome
    ⟨⟨some "vt".data, none⟩,
      ⟨none, some [⟨"fe-proj".data, "p1".data⟩], fun _ _ => false⟩, true, true,
      [⟨"d3".data, some "https://fe-proj.vercel.app".data, none, none⟩]⟩
    "d3".data
    ⟨"d3".data, some "https://fe-proj.vercel.app".data, none, none⟩
    (by decide) (by decide)).1

/-- C8 counterexample: a delete-data request with a demo id but no
code-host credential is not rejected — the server skips the repository
branch, runs the database delete and answers success, refuting the
required-credential validation claim. -/
theorem C8_counterexample :
    deleteDemoDataEndpoint (some "d1".data) none
        ⟨⟨none, none⟩, ⟨none, none, fun _ _ => false⟩, true, true,
          [⟨"d1".data, none, none, some "https://github.com/alice/repo1".data⟩]⟩ =
      ⟨.ok "Demo data deleted successfully", [Event.dbDelete "d1".data], []⟩ :=
  rfl

/-- C8 amended: the delete-data endpoint validates only the demo id; a
missing code-host credential is not rejected — the repository-deletion
branch is skipped (no code-host call) and the database delete still runs,
deciding the outcome. -/
theorem C8_missing_token_not_rejected (w : World) (did : List Char) (demo : Demo)
    (hdid : did.isEmpty = false) (hfind : findDemo w.db did = some demo) :
    (deleteDemoDataEndpoint (some did) none w).trace = [Event.dbDelete did]
      ∧ (((deleteDemoDataEndpoint (some did) none w).http).isOk = true
          ↔ w.dbDeleteOk = true) := by
  by_cases hdb : w.dbDeleteOk <;>
    simp [deleteDemoDataEndpoint, hdid, hfind, hdb, isTruthy, HttpResult.isOk]

/-- C8 amended witness: the counterexample request, missing its
credential, performs exactly the database delete and succeeds. -/
theorem C8_missing_token_not_rejected_witness :
    (deleteDemoDataEndpoint (some "d4".data) none
        ⟨⟨none, none⟩, ⟨none, none, fun _ _ => false⟩, true, true,
          [⟨"d4".data, none, none, some "https://github.com/alice/repo1".data⟩]⟩).trace =
      [Event.dbDelete "d4".data]
      ∧ (((deleteDemoDataEndpoint (some "d4".data) none
          ⟨⟨none, none⟩, ⟨none, none, fun _ _ => false⟩, true, true,
            [⟨"d4".data, none, none, some "https://github.com/alice/repo1".data⟩]⟩).http).isOk
          = true ↔ True) := by
  have h := C8_missing_token_not_rejected
    ⟨⟨none, none⟩, ⟨none, none, fun _ _ => false⟩, true, true,
      [⟨"d4".data, none, none, some "https://github.com/alice/repo1".data⟩]⟩
    "d4".data
    ⟨"d4".data, none, none, some "https://github.com/alice/repo1".data⟩
    (by decide) (by decide)
  exact ⟨h.1, by simpa using h.2⟩

/-- C3 counterexample: delete-data is not idempotent — after a
successful first call on a concrete world the record is gone, and the
immediate second call on the resulting store answers 404, not success. -/
theorem C3_counterexample :
    (((deleteDemoDataEndpoint (some "d5".data) (some "tok".data)
        ⟨⟨none, none⟩, ⟨none, none, fun _ _ => false⟩, true, true,
          [⟨"d5".data, none, none, none⟩]⟩).http).isOk = true)
      ∧ (deleteDemoDataEndpoint (some "d5".data) (some "tok".data)
          ((⟨⟨none, none⟩, ⟨none, none, fun _ _ => false⟩, true, true,
            [⟨"d5".data, none, none, none⟩]⟩ : World).setDb
            (deleteDemoDataEndpoint (some "d5".data) (some "tok".data)
              ⟨⟨none, none⟩, ⟨none, none, fun _ _ => false⟩, true, true,
                [⟨"d5".data, none, none, none⟩]⟩).db)).http = .notFound :=
  ⟨rfl, rfl⟩

/-- C3 amended: of the four operations, delete-deployments is idempotent
(it leaves the store unchanged, and a second call against a pre-cleared
listing still succeeds) and test-provider-connection issues no mutating
call; but delete-data and delete-all delete the record on a successful
first call, so an immediate second call answers 404 rather than
success. -/
theorem C3_only_two_operations_idempotent :
    (∀ (w : World) (demoId : Option (List Char)) (delOk : Scope → List Char → Bool),
        ((deleteVercelDeploymentsEndpoint demoId w).http).isOk = true →
        (deleteVercelDeploymentsEndpoint demoId w).db = w.db
          ∧ ((deleteVercelDeploymentsEndpoint demoId
              ((w.setDb (deleteVercelDeploymentsEndpoint demoId w).db).setApi
                (clearedAPI delOk))).http).isOk = true)
      ∧ (∀ (cfg : Config) (api : VercelAPI),
          ((testVercelEndpoint cfg api).2).all (fun e => !e.isMutating) = true)
      ∧ (∀ (w : World) (demoId tok : Option (List Char)),
          ((deleteDemoDataEndpoint demoId tok w).http).isOk = true →
          (deleteDemoDataEndpoint demoId tok
            (w.setDb (deleteDemoDataEndpoint demoId tok w).db)).http = .notFound)
      ∧ (∀ (w : World) (demoId tok : Option (List Char)),
          ((deleteDemoEndpoint demoId tok w).http).isOk = true →
          (deleteDemoEndpoint demoId tok
            (w.setDb (deleteDemoEndpoint demoId tok w).db)).http = .notFound) := by
  refine ⟨?_, ?_, ?_, ?_⟩
  · intro w demoId delOk h
    obtain ⟨did, demo, hid, hdid, hfind⟩ := deleteVercelDeploymentsEndpoint_ok_inv demoId w h
    subst hid
    refine ⟨deleteVercelDeploymentsEndpoint_db _ _, ?_⟩
    rw [deleteVercelDeploymentsEndpoint_db]
    by_cases hu : hasVercelUrls demo
    · have hclear := deleteVercelDeployments_cleared demo w.cfg delOk
      rcases hd : deleteVercelDeployments demo w.cfg (clearedAPI delOk) with ⟨r, tr⟩
      rw [hd] at hclear
      have hr : r = Except.ok () := hclear
      subst hr
      simp [deleteVercelDeploymentsEndpoint, World.setApi, World.setDb, hdid, hfind, hu,
        hd, HttpResult.isOk]
    · simp [deleteVercelDeploymentsEndpoint, World.setApi, World.setDb, hdid, hfind, hu,
        HttpResult.isOk]
  · intro cfg api
    unfold testVercelEndpoint
    by_cases ht : isTruthy cfg.vercelToken
    · rcases htid : cfg.teamId with _ | t
      · rcases hpl : api.personalListing with _ | qs <;>
          simp [ht, htid, hpl, Event.isMutating]
      · rcases htl : api.teamListing with _ | ps
        · rcases hpl : api.personalListing with _ | qs <;>
            simp [ht, htid, htl, hpl, Event.isMutating]
        · by_cases hemp : ps.isEmpty
          · rcases hpl : api.personalListing with _ | qs <;>
              simp [ht, htid, htl, hpl, hemp, Event.isMutating]
          · simp [ht, htid, htl, hemp, Event.isMutating]
    · simp [ht]
  · intro w demoId tok h
    obtain ⟨did, demo, hid, hdid, hfind, hdb, hdbeq⟩ :=
      deleteDemoDataEndpoint_ok_inv demoId tok w h
    subst hid
    rw [hdbeq]
    simp [deleteDemoDataEndpoint, World.setDb, hdid, findDemo_dbAfterDelete]
  · intro w demoId tok h
    obtain ⟨did, t, demo, hid, htk, he, hfind, hdb, hdbeq⟩ :=
      deleteDemoEndpoint_ok_inv demoId tok w h
    subst hid
    subst htk
    rw [hdbeq]
    simp [deleteDemoEndpoint, World.setDb, he, findDemo_dbAfterDelete]

/-- C3 amended witness: concrete runs of each conjunct — a second
delete-deployments call on a cleared listing still succeeds, a
test-provider-connection trace holds no mutating call, and second calls
of delete-data and delete-all answer 404. -/
theorem C3_only_two_operations_idempotent_witness :
    ((deleteVercelDeploymentsEndpoint (some "d6".data)
        (((⟨⟨none, none⟩, ⟨none, none, fun _ _ => false⟩, true, true,
          [⟨"d6".data, some "https://fe-proj.vercel.app".data, none, none⟩]⟩ : World).setDb
            (deleteVercelDeploymentsEndpoint (some "d6".data)
              ⟨⟨none, none⟩, ⟨none, none, fun _ _ => false⟩, true, true,
                [⟨"d6".data, some "https://fe-proj.vercel.app".data, none, none⟩]⟩).db).setApi
          (clearedAPI (fun _ _ => false)))).http).isOk = true
      ∧ ((testVercelEndpoint ⟨some "vt".data, none⟩ ⟨none, some [], fun _ _ => false⟩).2).all
          (fun e => !e.isMutating) = true
      ∧ (deleteDemoDataEndpoint (some "d7".data) (some "tok".data)
          ((⟨⟨none, none⟩, ⟨none, none, fun _ _ => false⟩, true, true,
            [⟨"d7".data, none, none, none⟩]⟩ : World).setDb
            (deleteDemoDataEndpoint (some "d7".data) (some "tok".data)
              ⟨⟨none, none⟩, ⟨none, none, fun _ _ => false⟩, true, true,
                [⟨"d7".data, none, none, none⟩]⟩).db)).http = .notFound
      ∧ (deleteDemoEndpoint (some "d8".data) (some "tok".data)
          ((⟨⟨none, none⟩, ⟨none, none, fun _ _ => false⟩, true, true,
            [⟨"d8".data, none, none, none⟩]⟩ : World).setDb
            (deleteDemoEndpoint (some "d8".data) (some "tok".data)
              ⟨⟨none, none⟩, ⟨none, none, fun _ _ => false⟩, true, true,
                [⟨"d8".data, none, none, none⟩]⟩).db)).http = .notFound :=
  ⟨(C3_only_two_operations_idempotent.1
      ⟨⟨none, none⟩, ⟨none, none, fun _ _ => false⟩, true, true,
        [⟨"d6".data, some "https://fe-proj.vercel.app".data, none, none⟩]⟩
      (some "d6".data) (fun _ _ => false) (by decide)).2,
    C3_only_two_operations_idempotent.2.1 ⟨some "vt".data, none⟩
      ⟨none, some [], fun _ _ => false⟩,
    C3_only_two_operations_idempotent.2.2.1
      ⟨⟨none, none⟩, ⟨none, none, fun _ _ => false⟩, true, true,
        [⟨"d7".data, none, none, none⟩]⟩
      (some "d7".data) (some "tok".data) (by decide),
    C3_only_two_operations_idempotent.2.2.2
      ⟨⟨none, none⟩, ⟨none, none, fun _ _ => false⟩, true, true,
        [⟨"d8".data, none, none, none⟩]⟩
      (some "d8".data) (some "tok".data) (by decide)⟩

end DemoPlatform
